import Mathlib

/-!
Verification of the gossip / change-log layer (`gossip.go`) and the
script-validation layer (`jsnucleus.go`) of the holochain repository.

The Go code persists everything in a string-keyed, string-valued buntdb
store.  We embed the store as an association list `Store`, decimal
rendering/parsing of integers (`fmt.Sprintf("%d", ·)` / `strconv.Atoi`)
as `intToString` / `atoi`, and each Go function as a Lean function of the
same name.  Fallible Go functions (`(T, error)`) become `Except GErr T`.
-/

deriving instance DecidableEq for Except

namespace Holo

/-- Splitting a character list at every occurrence of a separator, by
structural recursion (Go's `strings.Split` / the shape `String.splitOn`
computes, reducible inside the kernel). -/
def splitOnChar (sep : Char) : List Char → List (List Char)
  | [] => [[]]
  | c :: cs =>
    let r := splitOnChar sep cs
    if c = sep then [] :: r
    else
      match r with
      | [] => [[c]]
      | h :: t => (c :: h) :: t

def splitOnStr (sep : Char) (s : String) : List String :=
  (splitOnChar sep s.data).map String.mk

/-! ## Decimal strings

The store keeps every integer (`_idx`, `f:*` values, `peer:*` values) as
its base-10 ASCII rendering.  `natToChars`/`intToString` model Go's
`fmt.Sprintf("%d", n)`; `atoi` models `strconv.Atoi` (optional single
leading sign, then decimal digits, empty rejected; overflow is not
modelled, Go ints are treated as unbounded). -/

def digitChar (d : Nat) : Char := Char.ofNat (48 + d)

def charDigit (c : Char) : Option Nat :=
  if 48 ≤ c.toNat ∧ c.toNat ≤ 57 then some (c.toNat - 48) else none

def parseDigitsAux : List Char → Nat → Option Nat
  | [], acc => some acc
  | c :: cs, acc =>
    match charDigit c with
    | none => none
    | some d => parseDigitsAux cs (acc * 10 + d)

def parseDigits : List Char → Option Nat
  | [] => none
  | c :: cs => parseDigitsAux (c :: cs) 0

def natDigitsAux : Nat → Nat → List Char
  | 0, _ => []
  | fuel + 1, n => if n = 0 then [] else natDigitsAux fuel (n / 10) ++ [ digitChar (n % 10) ]

def natToChars (n : Nat) : List Char :=
  if n = 0 then [ '0' ] else natDigitsAux n n

def natToString (n : Nat) : String := String.mk (natToChars n)

theorem natDigitsAux_eq (fuel : Nat) :
    ∀ n, n ≤ fuel → natDigitsAux fuel n = (Nat.digits 10 n).reverse.map digitChar := by
  induction fuel with
  | zero =>
    intro n hn
    have h0 : n = 0 := Nat.le_zero.mp hn
    subst h0
    simp [natDigitsAux, Nat.digits_zero]
  | succ fuel ih =>
    intro n hn
    by_cases h0 : n = 0
    · subst h0; simp [natDigitsAux, Nat.digits_zero]
    · have hpos : 0 < n := Nat.pos_of_ne_zero h0
      have hdiv : n / 10 ≤ fuel := by
        have : n / 10 < n := Nat.div_lt_self hpos (by norm_num)
        omega
      rw [natDigitsAux, if_neg h0, ih (n / 10) hdiv,
        Nat.digits_def' (by norm_num : 1 < 10) hpos]
      simp [List.reverse_cons]

theorem natToChars_eq_digits (n : Nat) (h0 : n ≠ 0) :
    natToChars n = (Nat.digits 10 n).reverse.map digitChar := by
  rw [natToChars, if_neg h0, natDigitsAux_eq n n le_rfl]

def intToString (i : Int) : String :=
  if i < 0 then String.mk ( '-' :: natToChars i.natAbs) else String.mk (natToChars i.toNat)

def atoiChars : List Char → Option Int
  | [] => none
  | c :: cs =>
    if c = '-' then (parseDigits cs).map (fun n : Nat => -(n : Int))
    else if c = '+' then (parseDigits cs).map (fun n : Nat => (n : Int))
    else (parseDigits (c :: cs)).map (fun n : Nat => (n : Int))

def atoi (s : String) : Option Int := atoiChars s.data

theorem charDigit_digitChar (d : Nat) (h : d < 10) : charDigit (digitChar d) = some d := by
  interval_cases d <;> rfl

theorem digitChar_ne_dash (d : Nat) (h : d < 10) : digitChar d ≠ '-' := by
  interval_cases d <;> decide

theorem digitChar_ne_plus (d : Nat) (h : d < 10) : digitChar d ≠ '+' := by
  interval_cases d <;> decide

theorem parseDigitsAux_map (l : List Nat) (hl : ∀ d ∈ l, d < 10) (acc : Nat) :
    parseDigitsAux (l.map digitChar) acc
      = some (acc * 10 ^ l.length + Nat.ofDigits 10 l.reverse) := by
  induction l generalizing acc with
  | nil => simp [parseDigitsAux, Nat.ofDigits]
  | cons d rest ih =>
    have hd : d < 10 := hl d (List.mem_cons_self d rest)
    have hrest : ∀ x ∈ rest, x < 10 := fun x hx => hl x (List.mem_cons_of_mem d hx)
    simp only [List.map_cons, parseDigitsAux, charDigit_digitChar d hd]
    rw [ih hrest]
    congr 1
    rw [List.reverse_cons, Nat.ofDigits_append]
    simp [Nat.ofDigits_singleton, List.length_reverse]
    ring

theorem parseDigits_natToChars (n : Nat) : parseDigits (natToChars n) = some n := by
  by_cases h0 : n = 0
  · subst h0; rfl
  · have hne : Nat.digits 10 n ≠ [] := Nat.digits_ne_nil_iff_ne_zero.mpr h0
    have hlt : ∀ d ∈ (Nat.digits 10 n).reverse, d < 10 := by
      intro d hd
      exact Nat.digits_lt_base (by norm_num) (List.mem_reverse.mp hd)
    have hmain := parseDigitsAux_map (Nat.digits 10 n).reverse hlt 0
    rw [List.reverse_reverse, Nat.ofDigits_digits, Nat.zero_mul, Nat.zero_add] at hmain
    have hform : natToChars n = (Nat.digits 10 n).reverse.map digitChar :=
      natToChars_eq_digits n h0
    rw [hform]
    cases hrev : (Nat.digits 10 n).reverse with
    | nil => exact absurd (List.reverse_eq_nil_iff.mp hrev) hne
    | cons c cs =>
      rw [hrev] at hmain
      simpa [parseDigits] using hmain

theorem natToChars_ne_nil (n : Nat) : natToChars n ≠ [] := by
  by_cases h0 : n = 0
  · subst h0; simp [natToChars]
  · have hne : Nat.digits 10 n ≠ [] := Nat.digits_ne_nil_iff_ne_zero.mpr h0
    rw [natToChars_eq_digits n h0]
    simp [hne]

theorem atoi_mk_natToChars (n : Nat) : atoi (String.mk (natToChars n)) = some (n : Int) := by
  show atoiChars (natToChars n) = some (n : Int)
  by_cases h0 : n = 0
  · subst h0; rfl
  · have hform : natToChars n = (Nat.digits 10 n).reverse.map digitChar :=
      natToChars_eq_digits n h0
    have hne : Nat.digits 10 n ≠ [] := Nat.digits_ne_nil_iff_ne_zero.mpr h0
    cases hrev : (Nat.digits 10 n).reverse with
    | nil => exact absurd (List.reverse_eq_nil_iff.mp hrev) hne
    | cons d ds =>
      have hdmem : d ∈ Nat.digits 10 n := by
        have : d ∈ (Nat.digits 10 n).reverse := by rw [hrev]; exact List.mem_cons_self d ds
        exact List.mem_reverse.mp this
      have hd10 : d < 10 := Nat.digits_lt_base (by norm_num) hdmem
      have hparse := parseDigits_natToChars n
      rw [hform, hrev] at hparse ⊢
      simp only [atoiChars, List.map_cons]
      rw [if_neg (digitChar_ne_dash d hd10), if_neg (digitChar_ne_plus d hd10)]
      simp only [List.map_cons] at hparse
      rw [hparse]
      rfl

theorem atoi_natToString (n : Nat) : atoi (natToString n) = some (n : Int) :=
  atoi_mk_natToChars n

theorem atoi_intToString (i : Int) : atoi (intToString i) = some i := by
  by_cases hneg : i < 0
  · rw [intToString, if_pos hneg]
    have hred : atoiChars ( '-' :: natToChars i.natAbs)
        = (parseDigits (natToChars i.natAbs)).map (fun n : Nat => -(n : Int)) := rfl
    show atoiChars ( '-' :: natToChars i.natAbs) = some i
    rw [hred, parseDigits_natToChars]
    simp only [Option.map_some']
    congr 1
    omega
  · have htn : ((i.toNat : Nat) : Int) = i := Int.toNat_of_nonneg (by omega)
    rw [intToString, if_neg hneg]
    rw [atoi_mk_natToChars i.toNat, htn]

/-! ## The buntdb store

`gossip.go` keeps all state in one buntdb database: string keys, string
values.  We embed a database snapshot as an association list; `storeGet`
models `tx.Get` (`none` = `buntdb.ErrNotFound`) and `storeSet` models
`tx.Set` (overwrite or insert). -/

abbrev Store := List (String × String)

def storeGet : Store → String → Option String
  | [], _ => none
  | (k, v) :: rest, key => if k = key then some v else storeGet rest key

def storeSet : Store → String → String → Store
  | [], key, val => [(key, val)]
  | (k, v) :: rest, key, val =>
    if k = key then (key, val) :: rest else (k, v) :: storeSet rest key val

theorem storeGet_storeSet_self (s : Store) (k v : String) :
    storeGet (storeSet s k v) k = some v := by
  induction s with
  | nil => simp [storeSet, storeGet]
  | cons kv rest ih =>
    obtain ⟨k1, v1⟩ := kv
    by_cases h : k1 = k
    · simp [storeSet, storeGet, h]
    · simp [storeSet, storeGet, h, ih]

theorem storeGet_storeSet_ne (s : Store) (k v k2 : String) (h : k2 ≠ k) :
    storeGet (storeSet s k v) k2 = storeGet s k2 := by
  have h2 : k ≠ k2 := Ne.symm h
  induction s with
  | nil => simp [storeSet, storeGet, h2]
  | cons kv rest ih =>
    obtain ⟨k1, v1⟩ := kv
    by_cases h1 : k1 = k
    · subst h1
      simp [storeSet, storeGet, h2]
    · simp [storeSet, storeGet, h1, ih]

/-! ## Messages, fingerprints and the wire encoding

`Message` is the envelope `{Type, From, Body}` of `message.go`.  The
claims need the `GOSSIP_REQUEST` body shape (`GossipReq`) and an opaque
case for the other kinds; `typ` stands for the Go field `Type` (a Lean
keyword). -/

/-- Peer identifiers (`peer.ID`): opaque strings. -/
abbrev PeerID := String

/-- Modelled from the spec: `peer.IDB58Encode` (an external library call, not
in src) renders a peer ID as its base-58 string.  Peer IDs are opaque strings
here, so the injective deterministic rendering is the identity. -/
def IDB58Encode (p : PeerID) : String := p

/-- The message kinds named by the spec (`MessageKind` enumeration). -/
inductive MsgType
  | PUT
  | GET
  | MOD
  | DEL
  | LINK
  | GETLINK
  | PUTMETA
  | GETMETA
  | GOSSIP_REQUEST
deriving DecidableEq, Repr

/-- Body of a `GOSSIP_REQUEST` (`GossipReq` in gossip.go). -/
structure GossipReq where
  MyIdx : Int
  YourIdx : Int
deriving DecidableEq, Repr

/-- A message body: the gossip-request shape the claims inspect, or an
opaque payload for every other kind. -/
inductive MsgBody
  | gossipReq (g : GossipReq)
  | raw (s : String)
deriving DecidableEq, Repr

/-- The message envelope (`Message` in message.go; only the fields gossip.go
reads).  `typ` is the Go field `Type`. -/
structure Message where
  typ : MsgType
  From : PeerID
  Body : MsgBody
deriving DecidableEq, Repr

/-- The Go zero value `var msg Message` (which zero constant `Type` holds is
immaterial to every claim). -/
def zeroMessage : Message := ⟨.PUT, "", .raw ""⟩

def encodeType : MsgType → String
  | .PUT => "PUT"
  | .GET => "GET"
  | .MOD => "MOD"
  | .DEL => "DEL"
  | .LINK => "LINK"
  | .GETLINK => "GETLINK"
  | .PUTMETA => "PUTMETA"
  | .GETMETA => "GETMETA"
  | .GOSSIP_REQUEST => "GOSSIP_REQUEST"

def decodeType (s : String) : Option MsgType :=
  if s = "PUT" then some .PUT
  else if s = "GET" then some .GET
  else if s = "MOD" then some .MOD
  else if s = "DEL" then some .DEL
  else if s = "LINK" then some .LINK
  else if s = "GETLINK" then some .GETLINK
  else if s = "PUTMETA" then some .PUTMETA
  else if s = "GETMETA" then some .GETMETA
  else if s = "GOSSIP_REQUEST" then some .GOSSIP_REQUEST
  else none

/-- Modelled from the spec: the canonical, deterministic, self-describing
binary encoding of a `Message` (`ByteEncoder` of util.go, not in src).  A
tagged textual rendering; `ByteDecoder` below parses exactly this shape and
fails on anything else.  No claim relies on injectivity for `From` fields
containing the separator. -/
def ByteEncoder (m : Message) : String :=
  match m.Body with
  | .gossipReq g =>
      "MSG|" ++ encodeType m.typ ++ "|" ++ m.From ++ "|GREQ|"
        ++ intToString g.MyIdx ++ "|" ++ intToString g.YourIdx
  | .raw s => "MSG|" ++ encodeType m.typ ++ "|" ++ m.From ++ "|RAW|" ++ s

/-- Modelled from the spec: the decoder for `ByteEncoder` (`ByteDecoder` of
util.go, not in src).  Returns `none` on any string that is not a canonical
encoding — the `DecodeError` of the spec's taxonomy. -/
def ByteDecoder (s : String) : Option Message :=
  match splitOnStr '|' s with
  | "MSG" :: t :: f :: "GREQ" :: a :: b :: [] =>
      (decodeType t).bind fun ty =>
      (atoi a).bind fun x =>
      (atoi b).map fun y => Message.mk ty f (.gossipReq ⟨x, y⟩)
  | "MSG" :: t :: f :: "RAW" :: r :: [] =>
      (decodeType t).map fun ty => Message.mk ty f (.raw r)
  | _ => none

/-- Modelled from the spec: `m.Fingerprint()` (message.go, not in src) — the
deterministic hash of the message's canonical encoding, the deduplication
key.  Modelled as an injective tagging of the canonical encoding; no claim
relies on properties of the hash beyond determinism. -/
def Fingerprint (m : Message) : String := "FP(" ++ ByteEncoder m ++ ")"

/-! ## gossip.go -/

/-- The error values the embedded functions can surface. -/
inductive GErr
  | notFound
  | noSuchIdx
  | atoiFailure (s : String)
  | expectedGossipReq
  | unknownMessageType
  | sendFailure (s : String)
  | custom (s : String)
deriving DecidableEq, Repr

/-- A put or link for gossiping (`Put` in gossip.go). -/
structure Put where
  idx : Int
  M : Message
deriving DecidableEq, Repr

/-- A gossip message (`Gossip` in gossip.go). -/
structure Gossip where
  Puts : List Put
deriving DecidableEq, Repr

/-- getIntVal returns an integer value at a given key, and assumes the value
0 if the key doesn't exist (gossip.go:90).  `buntdb.ErrNotFound` is
swallowed; a value `strconv.Atoi` rejects is an error. -/
def getIntVal (key : String) (s : Store) : Except GErr Int :=
  match storeGet s key with
  | none => .ok 0
  | some val =>
    match atoi val with
    | some idx => .ok idx
    | none => .error (.atoiFailure val)

/-- incIdx adds a new index record to dht for gossiping later
(gossip.go:43-87).  In one transaction: read-modify-write `_idx`, store the
encoded message under `idx:<new>`, store `<new>` under `f:<fingerprint>`.
A nil message returns the empty index and no error.  The source performs no
duplicate-fingerprint check of any kind. -/
def incIdx (s : Store) (m : Option Message) : Except GErr (String × Store) :=
  match m with
  | none => .ok ("", s)
  | some msg =>
    match getIntVal "_idx" s with
    | .error e => .error e
    | .ok idx0 =>
      let idx := idx0 + 1
      let index := intToString idx
      let s1 := storeSet s "_idx" index
      let b := ByteEncoder msg
      let s2 := storeSet s1 ("idx:" ++ index) b
      let f := Fingerprint msg
      let s3 := storeSet s2 ("f:" ++ f) index
      .ok (index, s3)

/-- GetIdx returns the current put index for gossip (gossip.go:107). -/
def GetIdx (s : Store) : Except GErr Int := getIntVal "_idx" s

/-- GetIdxMessage returns the message that caused the change at a given
index (gossip.go:120-136).  Faithful to the source's slip: the closure
tests the outer `err` (still nil) instead of the decoder's `e`, so a
`ByteDecoder` failure is discarded and the zero-or-partially-decoded
message is returned with a nil error.  Only a missing key is reported
(`ErrNoSuchIdx`). -/
def GetIdxMessage (s : Store) (idx : Int) : Except GErr Message :=
  match storeGet s ("idx:" ++ intToString idx) with
  | none => .error .noSuchIdx
  | some msgStr =>
    match ByteDecoder msgStr with
    | some m => .ok m
    | none => .ok zeroMessage

/-- GetFingerprint returns the index of the message that made a change, or
-1 if we don't have it (gossip.go:148-165). -/
def GetFingerprint (s : Store) (f : String) : Except GErr Int :=
  match storeGet s ("f:" ++ f) with
  | none => .ok (-1)
  | some idxStr =>
    match atoi idxStr with
    | some n => .ok n
    | none => .error (.atoiFailure idxStr)

/-- HaveFingerprint returns true if we have seen the given fingerprint
(gossip.go:139-145). -/
def HaveFingerprint (s : Store) (f : String) : Except GErr Bool :=
  match GetFingerprint s f with
  | .ok index => .ok (decide (0 ≤ index))
  | .error e => .error e

/-- Modelled from the spec: the records the buntdb index named "idx"
(created outside src; §4.1: keys `idx:*`, suffix ordered as a base-10
integer) hands to the scan callback.  `GetPuts` filters `idx ≥ since`
explicitly and sorts its result, so neither the visit order nor the
code-point pivot `string(since)` (§9 notes it; it precedes every `idx:` key)
can change its output; the scan therefore visits every `idx:*` record, in
store order. -/
def idxRecords (s : Store) : List (String × String) :=
  s.filter (fun kv => ("idx:".data).isPrefixOf kv.1.data)

/-- One callback invocation of the scan inside GetPuts (gossip.go:171-185).
The Bool is "scan stopped": the callback returned false.  Faithful to the
source: `idx, _ := strconv.Atoi(x[1])` reads 0 on a malformed suffix, an
empty value yields a put with the zero message, and a decode failure stops
the scan without appending (its error is a shadowed local). -/
def scanStep (since : Int) : List Put × Bool → String × String → List Put × Bool
  | (acc, true), _ => (acc, true)
  | (acc, false), (key, value) =>
    let x := splitOnStr ':' key
    let idx : Int := (atoi (x.getD 1 "")).getD 0
    if since ≤ idx then
      if value ≠ "" then
        match ByteDecoder value with
        | none => (acc, true)
        | some m => (acc ++ [⟨idx, m⟩], false)
      else (acc ++ [⟨idx, zeroMessage⟩], false)
    else (acc, false)

def putLE (a b : Put) : Prop := a.idx ≤ b.idx

instance : DecidableRel putLE := fun a b => Int.decLe a.idx b.idx

instance : IsTotal Put putLE := ⟨fun a b => Int.le_total a.idx b.idx⟩

instance : IsTrans Put putLE := ⟨fun _ _ _ hab hbc => le_trans hab hbc⟩

/-- The `sort.Slice(puts, …idx <…)` at gossip.go:186, as a deterministic
sort by idx. -/
def sortPuts (l : List Put) : List Put := List.insertionSort putLE l

/-- The list GetPuts builds: scan, then sort ascending by idx. -/
def GetPutsList (s : Store) (since : Int) : List Put :=
  sortPuts ((idxRecords s).foldl (scanStep since) ([], false)).1

/-- GetPuts returns a list of puts after the given index (gossip.go:168-190).
Faithful to the source's two silent error paths: buntdb's
`AscendGreaterOrEqual` returns nil when the callback stops the scan, and the
callback's decode error shadows the outer `err` (`err := ByteDecoder(…)`
inside the closure), so GetPuts always returns a nil error — a decode
failure merely truncates the scan. -/
def GetPuts (s : Store) (since : Int) : Except GErr (List Put) :=
  .ok (GetPutsList s since)

/-- GetGossiper loads the last known index of the gossiper
(gossip.go:193-204).  The transaction is a read-only `View`: despite the
source comment "adds them if not didn't exist before", nothing is written,
and an unknown peer reads as 0 via `getIntVal`. -/
def GetGossiper (s : Store) (id : PeerID) : Except GErr Int :=
  getIntVal ("peer:" ++ IDB58Encode id) s

/-- UpdateGossiper updates a gossiper (gossip.go:233-252): it reads the
current cursor and returns nil early, writing nothing, when `newIdx` is
lower; otherwise it stores `newIdx`. -/
def UpdateGossiper (s : Store) (id : PeerID) (newIdx : Int) : Except GErr Store :=
  let key := "peer:" ++ IDB58Encode id
  match getIntVal key s with
  | .error e => .error e
  | .ok idx =>
    if newIdx < idx then .ok s
    else .ok (storeSet s key (intToString newIdx))

/-- The DHT state the gossip claims touch: the store, the per-peer in-flight
markers (`dht.gossips`), and the pending gossip-with requests queued on the
channel (`dht.gchan`). -/
structure DHTState where
  store : Store
  gossips : List PeerID
  gchan : List PeerID
deriving DecidableEq, Repr

/-- GossipReceiver handles an incoming gossip-protocol message
(gossip.go:254-291).  For a well-formed GOSSIP_REQUEST it replies with
`GetPuts(YourIdx)` and, exactly when our record of the sender
(`GetGossiper`) reads without error and is strictly behind the sender's own
`MyIdx`, queues a back-gossip request for the sender on `gchan`
(`dht.gchan <- gossipWithReq{m.From}`). -/
def GossipReceiver (st : DHTState) (m : Message) : Except GErr Gossip × DHTState :=
  match m.typ with
  | .GOSSIP_REQUEST =>
    match m.Body with
    | .gossipReq t =>
      match GetPuts st.store t.YourIdx with
      | .error e => (.error e, st)
      | .ok puts =>
        let g : Gossip := ⟨puts⟩
        match GetGossiper st.store m.From with
        | .ok idx =>
          if idx < t.MyIdx then (.ok g, { st with gchan := st.gchan ++ [m.From] })
          else (.ok g, st)
        | .error _ => (.ok g, st)
    | _ => (.error .expectedGossipReq, st)
  | _ => (.error .unknownMessageType, st)

/-- The environment gossipWith drives: the transport `Send` (an external
collaborator per spec §1) and `ActionReceiver` (action.go, not in src),
which applies one put's message and may mutate the store.  Both are
oracles: the theorems below hold for every behaviour of them, erroring
behaviours included. -/
structure Env where
  send : PeerID → GossipReq → Except GErr Gossip
  act : Store → Message → Except GErr Unit × Store

/-- One iteration of the put loop (gossip.go:336-362): compute the
fingerprint, skip when it is already present or `HaveFingerprint` errs
(both only logged), otherwise run `ActionReceiver`, whose result and error
are also only logged. -/
def applyPut (env : Env) (s : Store) (m : Message) : Store :=
  match HaveFingerprint s (Fingerprint m) with
  | .ok ex => if ex then s else (env.act s m).2
  | .error _ => s

/-- The put loop with its running `idx = i + yourIdx + 1` counter
(gossip.go:332-362); returns the final store and the value `idx` holds
after the loop. -/
def runPutsAux (env : Env) (yourIdx : Int) : List Put → Nat → Store → Int → Store × Int
  | [], _, s, idx => (s, idx)
  | p :: rest, i, s, _ =>
    runPutsAux env yourIdx rest (i + 1) (applyPut env s p.M) ((i : Int) + yourIdx + 1)

def runPuts (env : Env) (yourIdx : Int) (puts : List Put) (s : Store) : Store × Int :=
  runPutsAux env yourIdx puts 0 s 0

/-- What one gossipWith call produced: its returned error, the state it
left, and every transport Send it performed. -/
structure GossipOutcome where
  res : Except GErr Unit
  st : DHTState
  sends : List (PeerID × GossipReq)
deriving Repr

/-- The body of gossipWith after the in-flight marker is held
(gossip.go:309-365): read `myIdx` and the peer cursor, send the
GOSSIP_REQUEST, run the returned puts when there are any, then advance the
peer cursor to the loop's final `idx`. -/
def gossipWithBody (env : Env) (st : DHTState) (id : PeerID) : GossipOutcome :=
  match GetIdx st.store with
  | .error e => ⟨.error e, st, []⟩
  | .ok myIdx =>
    match GetGossiper st.store id with
    | .error e => ⟨.error e, st, []⟩
    | .ok yourIdx =>
      let req : GossipReq := ⟨myIdx, yourIdx + 1⟩
      match env.send id req with
      | .error e => ⟨.error e, st, [(id, req)]⟩
      | .ok gossip =>
        let puts := gossip.Puts
        if 0 < puts.length then
          match runPuts env yourIdx puts st.store with
          | (s1, idx) =>
            match UpdateGossiper s1 id idx with
            | .error e => ⟨.error e, { st with store := s1 }, [(id, req)]⟩
            | .ok s2 => ⟨.ok (), { st with store := s2 }, [(id, req)]⟩
        else ⟨.ok (), st, [(id, req)]⟩

/-- gossipWith gossips with a peer (gossip.go:294-366).  The per-peer
in-flight marker `dht.gossips[id]`: when already set for this peer the call
returns immediately with no error (loop suppression); otherwise it is set,
the body runs, and a deferred delete releases it on exit. -/
def gossipWith (env : Env) (st : DHTState) (id : PeerID) : GossipOutcome :=
  if st.gossips.contains id then ⟨.ok (), st, []⟩
  else
    let out := gossipWithBody env { st with gossips := id :: st.gossips } id
    ⟨out.res, { out.st with gossips := out.st.gossips.erase id }, out.sends⟩

/-! ## jsnucleus.go — the JSRibosome validation path -/

/-- A value the script VM returned, as the validation path inspects it
(`otto.Value`): a boolean, or anything else carried as its rendering. -/
inductive JSValue
  | boolean (b : Bool)
  | nonBoolean (shown : String)
deriving DecidableEq, Repr

/-- The validation-path errors of jsnucleus.go, as values; `errString`
renders each as its Go `err.Error()` text.  `validationFailed` is the
sentinel `ValidationFailedErr`. -/
inductive VErr
  | execError (fnName msg : String)
  | invalidResult (fnName got : String)
  | validationFailed
  | invalidEntry (content : String)
  | otherErr (msg : String)
deriving DecidableEq, Repr

/-- The `err.Error()` text of each error.  The sentinel's text is modelled
from the spec (`ValidationFailedErr` lives outside src); the others are the
`fmt.Errorf` formats of jsnucleus.go. -/
def errString : VErr → String
  | .execError f m => "Error executing " ++ f ++ ": " ++ m
  | .invalidResult f got => f ++ " should return boolean, got: " ++ got
  | .validationFailed => "Validation Failed"
  | .invalidEntry c => "Invalid entry: " ++ c
  | .otherErr m => m

/-- Replace every occurrence of one character by a character sequence
(`strings.Replace(s, old, new, -1)` for a one-character `old`). -/
def replaceChar (c : Char) (repl : List Char) (l : List Char) : List Char :=
  l.foldr (fun x acc => if x = c then repl ++ acc else x :: acc) []

/-- jsSanitizeString (jsnucleus.go:673-678) makes sure all quotes are
quoted and returns are removed: strip every LF, then every CR, then escape
every double quote, in that order as in the source. -/
def jsSanitizeString (s : String) : String :=
  let s0 := replaceChar '\n' [] s.data
  let s1 := replaceChar '\r' [] s0
  let s2 := replaceChar '\"' [ '\\', '\"' ] s1
  String.mk s2

/-- Modelled from the spec: the entry data-format tags (constants of
entry.go, not in src; spec §3 names the four formats). -/
def DataFormatRawJS : String := "js"

def DataFormatString : String := "string"

def DataFormatJSON : String := "json"

def DataFormatLinks : String := "links"

/-- An entry definition (the fields the validation path reads). -/
structure EntryDef where
  Name : String
  DataFormat : String
deriving DecidableEq, Repr

/-- A chain header as the validation path renders it; `Typ` is the Go field
`Type`, and `Time` is already RFC3339-rendered. -/
structure Header where
  EntryLink : String
  Typ : String
  Time : String
deriving DecidableEq, Repr

/-- mkJSSources (jsnucleus.go:575-578). -/
def mkJSSources (sources : List String) : String :=
  "[\"" ++ String.intercalate "\",\"" sources ++ "\"]"

/-- prepareJSValidateEntryArgs (jsnucleus.go:580-597): render the entry per
its data format (raw js verbatim, string quoted+sanitized, json/links via
JSON.parse), and the sources array.  An unknown format is an error. -/
def prepareJSValidateEntryArgs (def_ : EntryDef) (entry : String) (sources : List String) :
    Except VErr (String × String) :=
  let c := entry
  let srcs := mkJSSources sources
  if def_.DataFormat = DataFormatRawJS then .ok (c, srcs)
  else if def_.DataFormat = DataFormatString then
    .ok ("\"" ++ jsSanitizeString c ++ "\"", srcs)
  else if def_.DataFormat = DataFormatLinks ∨ def_.DataFormat = DataFormatJSON then
    .ok ("JSON.parse(\"" ++ jsSanitizeString c ++ "\")", srcs)
  else .error (.otherErr ("data format not implemented: " ++ def_.DataFormat))

/-- The header object literal of jsnucleus.go:630-635. -/
def mkHdrObj (header : Header) : String :=
  "\x7b\"EntryLink\":\"" ++ header.EntryLink ++ "\",\"Type\":\"" ++ header.Typ
    ++ "\",\"Time\":\"" ++ header.Time ++ "\"\x7d"

/-- The script call validateEntry builds (jsnucleus.go:637). -/
def mkValidateEntryCode (fnName : String) (def_ : EntryDef) (e : String) (header : Header)
    (srcs : String) : String :=
  fnName ++ "(\"" ++ def_.Name ++ "\"," ++ e ++ "," ++ mkHdrObj header ++ "," ++ srcs ++ ")"

/-- runValidate (jsnucleus.go:599-621), over an oracle `run` standing for
`jsr.vm.Run`: a VM error is wrapped as "Error executing …"; a boolean false
becomes the `ValidationFailedErr` sentinel; a non-boolean return becomes
the "%s should return boolean, got: %v" error (`InvalidResult` in the
spec's taxonomy). -/
def runValidate (run : String → Except String JSValue) (fnName code : String) :
    Except VErr Unit :=
  match run code with
  | .error e => .error (.execError fnName e)
  | .ok v =>
    match v with
    | .boolean b => if b then .ok () else .error .validationFailed
    | .nonBoolean shown => .error (.invalidResult fnName shown)

/-- validateEntry (jsnucleus.go:623-645): build the script call, run it via
runValidate, and rewrite the `ValidationFailedErr` sentinel into
"Invalid entry: <entry content>". -/
def validateEntry (run : String → Except String JSValue) (fnName : String) (def_ : EntryDef)
    (entry : String) (header : Header) (sources : List String) : Except VErr Unit :=
  match prepareJSValidateEntryArgs def_ entry sources with
  | .error e => .error e
  | .ok (e, srcs) =>
    let code := mkValidateEntryCode fnName def_ e header srcs
    match runValidate run fnName code with
    | .ok u => .ok u
    | .error err =>
      if err = .validationFailed then .error (.invalidEntry entry) else .error err

/-- An otto custom error value as scripts see one
(`vm.MakeCustomError(name, message)`). -/
structure OttoError where
  name : String
  message : String
deriving DecidableEq, Repr

/-- mkOttoErr (jsnucleus.go:835-837): every host-function failure reaches
the script as a custom error named "HolochainError" whose message is the Go
error text; the commit binding (jsnucleus.go:993-1016) applies it to the
error `Do` returned. -/
def mkOttoErr (msg : String) : OttoError := ⟨"HolochainError", msg⟩

/-! ## Supporting lemmas -/

theorem getIntVal_storeSet_self (s : Store) (key : String) (i : Int) :
    getIntVal key (storeSet s key (intToString i)) = .ok i := by
  simp only [getIntVal, storeGet_storeSet_self, atoi_intToString]

theorem scanStep_mem (since : Int) (ab : List Put × Bool) (kv : String × String) :
    ∀ p ∈ (scanStep since ab kv).1, p ∈ ab.1 ∨ since ≤ p.idx := by
  obtain ⟨acc, b⟩ := ab
  obtain ⟨key, value⟩ := kv
  intro p hp
  cases b with
  | true => exact Or.inl hp
  | false =>
    simp only [scanStep] at hp
    by_cases hle : since ≤ ((atoi ((splitOnStr ':' key).getD 1 "")).getD 0 : Int)
    · rw [if_pos hle] at hp
      by_cases hv : value ≠ ""
      · rw [if_pos hv] at hp
        cases hdec : ByteDecoder value with
        | none => rw [hdec] at hp; exact Or.inl hp
        | some m =>
          rw [hdec] at hp
          rcases List.mem_append.mp hp with h | h
          · exact Or.inl h
          · right
            rw [List.mem_singleton.mp h]
            exact hle
      · rw [if_neg hv] at hp
        rcases List.mem_append.mp hp with h | h
        · exact Or.inl h
        · right
          rw [List.mem_singleton.mp h]
          exact hle
    · rw [if_neg hle] at hp
      exact Or.inl hp

theorem scanFold_since (since : Int) (kvs : List (String × String)) (ab : List Put × Bool)
    (hacc : ∀ p ∈ ab.1, since ≤ p.idx) :
    ∀ p ∈ (kvs.foldl (scanStep since) ab).1, since ≤ p.idx := by
  induction kvs generalizing ab with
  | nil => exact hacc
  | cons kv rest ih =>
    rw [List.foldl_cons]
    apply ih
    intro p hp
    rcases scanStep_mem since ab kv p hp with h | h
    · exact hacc p h
    · exact h

theorem runPutsAux_snd (env : Env) (y : Int) (puts : List Put) (i : Nat) (s : Store) (j : Int)
    (h : puts ≠ []) :
    (runPutsAux env y puts i s j).2 = (i : Int) + puts.length + y := by
  induction puts generalizing i s j with
  | nil => exact absurd rfl h
  | cons p rest ih =>
    by_cases hr : rest = []
    · subst hr
      simp only [runPutsAux, List.length_cons, List.length_nil]
      push_cast
      ring
    · simp only [runPutsAux, List.length_cons]
      rw [ih (i + 1) (applyPut env s p.M) ((i : Int) + y + 1) hr]
      push_cast
      ring

theorem runPuts_snd (env : Env) (y : Int) (puts : List Put) (s : Store) (h : puts ≠ []) :
    (runPuts env y puts s).2 = y + puts.length := by
  rw [runPuts, runPutsAux_snd env y puts 0 s 0 h]
  push_cast
  ring

theorem gossipWithBody_preserves_gossips (env : Env) (st : DHTState) (id : PeerID) :
    (gossipWithBody env st id).st.gossips = st.gossips := by
  unfold gossipWithBody
  dsimp only
  repeat' split
  all_goals rfl

/-! ## C4 — cursor monotonicity (UpdateGossiper) -/

/-- C4: for every peer p and values x, y with y < x (and a cursor that lets
the first write land), `setCursor(p, x)` then `setCursor(p, y)`
(UpdateGossiper) leaves `cursor(p) = x`: the lower update returns no error
and hands back the store unchanged. -/
theorem UpdateGossiper_monotone (s : Store) (p : PeerID) (x y c0 : Int)
    (h0 : getIntVal ("peer:" ++ IDB58Encode p) s = .ok c0)
    (hcx : c0 ≤ x) (hyx : y < x) :
    UpdateGossiper s p x = .ok (storeSet s ("peer:" ++ IDB58Encode p) (intToString x)) ∧
    UpdateGossiper (storeSet s ("peer:" ++ IDB58Encode p) (intToString x)) p y
      = .ok (storeSet s ("peer:" ++ IDB58Encode p) (intToString x)) ∧
    GetGossiper (storeSet s ("peer:" ++ IDB58Encode p) (intToString x)) p = .ok x := by
  have hnotlt : ¬ x < c0 := by omega
  refine ⟨?_, ?_, ?_⟩
  · simp only [UpdateGossiper, h0, if_neg hnotlt]
  · simp only [UpdateGossiper, getIntVal_storeSet_self, if_pos hyx]
  · simp only [GetGossiper, getIntVal_storeSet_self]

/-- C4 witness: a fresh peer, setCursor to 5 then to 3, cursor stays 5. -/
theorem UpdateGossiper_monotone_witness :
    UpdateGossiper ([] : Store) "QmB" 5 = .ok (storeSet [] ("peer:" ++ IDB58Encode "QmB") (intToString 5)) ∧
    UpdateGossiper (storeSet [] ("peer:" ++ IDB58Encode "QmB") (intToString 5)) "QmB" 3
      = .ok (storeSet [] ("peer:" ++ IDB58Encode "QmB") (intToString 5)) ∧
    GetGossiper (storeSet [] ("peer:" ++ IDB58Encode "QmB") (intToString 5)) "QmB" = .ok 5 :=
  UpdateGossiper_monotone [] "QmB" 5 3 0 (by decide) (by decide) (by decide)

/-! ## C2 — GetPuts returns an ascending sequence bounded below by since -/

/-- C2: for every store state and index since, GetPuts returns (with nil
error) a sequence sorted ascending by idx whose every element has
idx ≥ since; on the empty store it returns the empty sequence. -/
theorem GetPuts_ascending (s : Store) (since : Int) :
    GetPuts s since = .ok (GetPutsList s since) ∧
    (GetPutsList s since).Pairwise putLE ∧
    (∀ p ∈ GetPutsList s since, since ≤ p.idx) ∧
    GetPuts ([] : Store) since = .ok [] := by
  refine ⟨rfl, ?_, ?_, rfl⟩
  · exact List.sorted_insertionSort putLE _
  · intro p hp
    have hperm :=
      List.perm_insertionSort putLE ((idxRecords s).foldl (scanStep since) ([], false)).1
    have hp2 : p ∈ ((idxRecords s).foldl (scanStep since) ([], false)).1 :=
      hperm.mem_iff.mp hp
    exact scanFold_since since (idxRecords s) ([], false) (by intro q hq; cases hq) p hp2

/-! ## C3 — a decode failure during the GetPuts scan is silent -/

def c3m1 : Message := ⟨.PUT, "QmA", .raw "one"⟩

def c3m3 : Message := ⟨.PUT, "QmA", .raw "three"⟩

/-- C3 failing input, evaluated: a log whose record `idx:2` holds an
undecodable non-empty value.  The scan aborts there — record `idx:3`,
though decodable and in range, is missing — yet GetPuts returns `.ok`
(a nil error): the callback's decode error is a shadowed local, and
buntdb's AscendGreaterOrEqual returns nil when the callback stops the
scan.  The claim's required behaviour, propagating the decode error,
does not happen. -/
theorem GetPuts_decode_failure_is_silent :
    ByteDecoder "garbage" = none ∧
    GetPuts [("idx:1", ByteEncoder c3m1), ("idx:2", "garbage"), ("idx:3", ByteEncoder c3m3)] 0
      = .ok [⟨1, c3m1⟩] := by
  exact ⟨rfl, rfl⟩

/-! ## C1 — incIdx performs no duplicate-fingerprint check -/

theorem data_append (a b : String) : (a ++ b).data = a.data ++ b.data := rfl

theorem key_underscore_ne_idx (a : String) : ("_idx" : String) ≠ "idx:" ++ a := by
  intro he
  have hd := congrArg String.data he
  rw [data_append] at hd
  simp only [show ("_idx" : String).data = [ '_', 'i', 'd', 'x' ] from rfl,
    show ("idx:" : String).data = [ 'i', 'd', 'x', ':' ] from rfl, List.cons_append] at hd
  injection hd with h1 _
  exact absurd h1 (by decide)

theorem key_underscore_ne_f (a : String) : ("_idx" : String) ≠ "f:" ++ a := by
  intro he
  have hd := congrArg String.data he
  rw [data_append] at hd
  simp only [show ("_idx" : String).data = [ '_', 'i', 'd', 'x' ] from rfl,
    show ("f:" : String).data = [ 'f', ':' ] from rfl, List.cons_append] at hd
  injection hd with h1 _
  exact absurd h1 (by decide)

theorem key_idx_ne_f (a b : String) : "idx:" ++ a ≠ "f:" ++ b := by
  intro he
  have hd := congrArg String.data he
  rw [data_append, data_append] at hd
  simp only [show ("idx:" : String).data = [ 'i', 'd', 'x', ':' ] from rfl,
    show ("f:" : String).data = [ 'f', ':' ] from rfl, List.cons_append] at hd
  injection hd with h1 _
  exact absurd h1 (by decide)

def c1m : Message := ⟨.PUT, "QmA", .raw "hello"⟩

def c1Store : Store := [("_idx", "1"), ("idx:1", ByteEncoder c1m), ("f:" ++ Fingerprint c1m, "1")]

/-- C1 counterexample, evaluated: the fingerprint of `c1m` is already
recorded (at index 1), yet `incIdx` with `c1m` does not fail as a
duplicate: it returns index "2", advances `_idx` from 1 to 2, writes a new
`idx:2` record, and overwrites the `f:` key to "2". -/
theorem incIdx_duplicate_not_rejected :
    storeGet c1Store ("f:" ++ Fingerprint c1m) = some "1" ∧
    incIdx c1Store (some c1m)
      = .ok ("2", [("_idx", "2"), ("idx:1", ByteEncoder c1m), ("f:" ++ Fingerprint c1m, "2"),
          ("idx:2", ByteEncoder c1m)]) ∧
    GetIdx [("_idx", "2"), ("idx:1", ByteEncoder c1m), ("f:" ++ Fingerprint c1m, "2"),
        ("idx:2", ByteEncoder c1m)] = .ok 2 :=
  ⟨rfl, rfl, rfl⟩

/-- The store incIdx leaves behind. -/
def incIdxStore (s : Store) (m : Message) (n : Int) : Store :=
  storeSet (storeSet (storeSet s "_idx" (intToString (n + 1)))
      ("idx:" ++ intToString (n + 1)) (ByteEncoder m))
    ("f:" ++ Fingerprint m) (intToString (n + 1))

/-- C1 amended: incIdx never rejects a duplicate.  Even when the message's
fingerprint is already recorded, it succeeds, advances `_idx` to n+1,
stores the encoded message under `idx:<n+1>`, overwrites `f:<fp>` to point
at the new index, and leaves every other key unchanged. -/
theorem incIdx_appends_unconditionally (s : Store) (m : Message) (n : Int) (j : String)
    (hdup : storeGet s ("f:" ++ Fingerprint m) = some j)
    (hidx : getIntVal "_idx" s = .ok n) :
    incIdx s (some m) = .ok (intToString (n + 1), incIdxStore s m n) ∧
    getIntVal "_idx" (incIdxStore s m n) = .ok (n + 1) ∧
    storeGet (incIdxStore s m n) ("f:" ++ Fingerprint m) = some (intToString (n + 1)) ∧
    storeGet (incIdxStore s m n) ("idx:" ++ intToString (n + 1)) = some (ByteEncoder m) ∧
    ∀ k, k ≠ "_idx" → k ≠ "idx:" ++ intToString (n + 1) → k ≠ "f:" ++ Fingerprint m →
      storeGet (incIdxStore s m n) k = storeGet s k := by
  refine ⟨?_, ?_, ?_, ?_, ?_⟩
  · simp only [incIdx, hidx, incIdxStore]
  · have hget : storeGet (incIdxStore s m n) "_idx" = some (intToString (n + 1)) := by
      rw [incIdxStore, storeGet_storeSet_ne _ _ _ _ (key_underscore_ne_f (Fingerprint m)),
        storeGet_storeSet_ne _ _ _ _ (key_underscore_ne_idx (intToString (n + 1))),
        storeGet_storeSet_self]
    simp only [getIntVal, hget, atoi_intToString]
  · rw [incIdxStore, storeGet_storeSet_self]
  · rw [incIdxStore,
      storeGet_storeSet_ne _ _ _ _ (key_idx_ne_f (intToString (n + 1)) (Fingerprint m)),
      storeGet_storeSet_self]
  · intro k hk1 hk2 hk3
    rw [incIdxStore, storeGet_storeSet_ne _ _ _ _ hk3, storeGet_storeSet_ne _ _ _ _ hk2,
      storeGet_storeSet_ne _ _ _ _ hk1]

/-- C1 amended witness: the duplicate append evaluated at the concrete
duplicate store. -/
theorem incIdx_appends_unconditionally_witness :
    incIdx c1Store (some c1m) = .ok (intToString (1 + 1), incIdxStore c1Store c1m 1) :=
  (incIdx_appends_unconditionally c1Store c1m 1 "1" rfl rfl).1

/-! ## C5 — gossip loop suppression -/

/-- C5: invoking gossipWith for a peer whose in-flight marker is set
returns immediately — no error, no transport Send, no state change — and
for every invocation the marker set is exactly what it was before the call
once the call exits (the deferred delete releases what the call set). -/
theorem gossipWith_suppressed (env : Env) (st : DHTState) (id : PeerID)
    (h : st.gossips.contains id = true) :
    gossipWith env st id = ⟨.ok (), st, []⟩ ∧
    ∀ env2 st2, (gossipWith env2 st2 id).st.gossips = st2.gossips := by
  refine ⟨?_, ?_⟩
  · unfold gossipWith
    rw [if_pos h]
  · intro env2 st2
    by_cases h2 : st2.gossips.contains id = true
    · unfold gossipWith
      rw [if_pos h2]
    · unfold gossipWith
      rw [if_neg h2]
      show (gossipWithBody env2 { st2 with gossips := id :: st2.gossips } id).st.gossips.erase id
          = st2.gossips
      rw [gossipWithBody_preserves_gossips]
      exact List.erase_cons_head id st2.gossips

def c5env : Env := ⟨fun _ _ => .error (.sendFailure "unreachable"), fun s _ => (.ok (), s)⟩

def c5st : DHTState := ⟨[], ["QmP"], []⟩

/-- C5 witness: with the marker set for QmP, gossipWith is an error-free
no-op that sends nothing. -/
theorem gossipWith_suppressed_witness :
    gossipWith c5env c5st "QmP" = ⟨.ok (), c5st, []⟩ :=
  (gossipWith_suppressed c5env c5st "QmP" (by decide)).1

/-! ## C6 — GossipReceiver: reply puts and conditional back-gossip -/

/-- C6: on a GOSSIP_REQUEST from peer f with body {MyIdx, YourIdx}, the
receiver replies with the puts GetPuts(YourIdx) returns, and it enqueues a
back-gossip request for f on the channel iff the stored cursor for f is
strictly below the incoming MyIdx; otherwise the state is untouched. -/
theorem GossipReceiver_spec (st : DHTState) (f : PeerID) (t : GossipReq) (c : Int)
    (hc : GetGossiper st.store f = .ok c) :
    (GossipReceiver st ⟨.GOSSIP_REQUEST, f, .gossipReq t⟩).1
      = .ok ⟨GetPutsList st.store t.YourIdx⟩ ∧
    ((GossipReceiver st ⟨.GOSSIP_REQUEST, f, .gossipReq t⟩).2.gchan
      = st.gchan ++ [f] ↔ c < t.MyIdx) ∧
    (¬ c < t.MyIdx → (GossipReceiver st ⟨.GOSSIP_REQUEST, f, .gossipReq t⟩).2 = st) := by
  simp only [GossipReceiver, GetPuts, hc]
  by_cases h : c < t.MyIdx
  · simp [h]
  · simp [h]

/-- C6 witness: cursor 0 behind MyIdx 2 enqueues the back-gossip. -/
theorem GossipReceiver_spec_witness :
    (GossipReceiver ⟨[("peer:QmA", "0")], [], []⟩
        ⟨.GOSSIP_REQUEST, "QmA", .gossipReq ⟨2, 1⟩⟩).2.gchan
      = ([] : List PeerID) ++ ["QmA"] ↔ (0 : Int) < 2 :=
  (GossipReceiver_spec ⟨[("peer:QmA", "0")], [], []⟩ "QmA" ⟨2, 1⟩ 0 (by decide)).2.1

/-! ## C7 — per-put errors do not abort the batch; the cursor advances -/

/-- C7: in gossipWith with a non-empty batch, the put loop's final index is
yourIdx + count — every put is inspected whatever the individual outcomes,
since runPuts folds over the whole list for every ActionReceiver oracle,
erroring ones included — and gossipWith's returned error is exactly
UpdateGossiper's: an individual put failure never becomes the return
error. -/
theorem gossipWith_batch (env : Env) (st : DHTState) (id : PeerID)
    (myIdx yourIdx : Int) (g : Gossip)
    (hfree : st.gossips.contains id = false)
    (h1 : GetIdx st.store = .ok myIdx)
    (h2 : GetGossiper st.store id = .ok yourIdx)
    (h3 : env.send id ⟨myIdx, yourIdx + 1⟩ = .ok g)
    (h4 : g.Puts ≠ []) :
    (runPuts env yourIdx g.Puts st.store).2 = yourIdx + g.Puts.length ∧
    gossipWith env st id =
      (match UpdateGossiper (runPuts env yourIdx g.Puts st.store).1 id
          (yourIdx + g.Puts.length) with
       | .ok s2 => ⟨.ok (), { st with store := s2 }, [(id, ⟨myIdx, yourIdx + 1⟩)]⟩
       | .error e => ⟨.error e, { st with store := (runPuts env yourIdx g.Puts st.store).1 },
           [(id, ⟨myIdx, yourIdx + 1⟩)]⟩) := by
  have hsnd := runPuts_snd env yourIdx g.Puts st.store h4
  refine ⟨hsnd, ?_⟩
  have hlen : 0 < g.Puts.length := List.length_pos.mpr h4
  have hnot : ¬ (st.gossips.contains id = true) := by rw [hfree]; decide
  unfold gossipWith
  rw [if_neg hnot]
  simp only [gossipWithBody, h1, h2, h3]
  rw [if_pos hlen, hsnd]
  cases hU : UpdateGossiper (runPuts env yourIdx g.Puts st.store).1 id
      (yourIdx + g.Puts.length) with
  | ok s2 => simp [hU, List.erase_cons_head]
  | error e => simp [hU, List.erase_cons_head]

def c7put : Put := ⟨1, ⟨.PUT, "QmA", .raw "payload"⟩⟩

def c7g : Gossip := ⟨[c7put]⟩

/-- An environment whose ActionReceiver always fails: the witness shows the
batch still completes and the loop index still reaches yourIdx + count. -/
def c7env : Env := ⟨fun _ _ => .ok c7g, fun s _ => (.error (.custom "boom"), s)⟩

def c7st : DHTState := ⟨[], [], []⟩

/-- C7 witness: with an always-failing ActionReceiver, the loop index after
the single-put batch is 0 + 1. -/
theorem gossipWith_batch_witness :
    (runPuts c7env 0 c7g.Puts c7st.store).2 = 0 + (c7g.Puts.length : Int) :=
  (gossipWith_batch c7env c7st "QmZ" 0 0 c7g (by decide) rfl rfl rfl (by decide)).1

/-! ## C9 — GetGossiper reads 0 for an unknown peer and writes nothing -/

/-- C9 evaluation at the failing input: an unknown peer reads as cursor 0
with no error.  GetGossiper runs inside a read-only View transaction and
takes the store by value here precisely because the source writes nothing —
the registration write the claim (and the function's own comment) describes
does not exist in the code. -/
theorem GetGossiper_unknown_reads_zero :
    GetGossiper ([] : Store) "QmUnknown" = .ok 0 := rfl

/-! ## C10 — GetIdxMessage discards decode errors -/

/-- C10: when the record at an assigned index is present but fails to
decode, GetIdxMessage returns a nil error with the zero message: the
decoder's error `e` is tested against the outer nil `err` and discarded, so
log corruption at a present index is never reported. -/
theorem GetIdxMessage_discards_decode_error (s : Store) (idx : Int) (v : String)
    (h1 : storeGet s ("idx:" ++ intToString idx) = some v)
    (h2 : ByteDecoder v = none) :
    GetIdxMessage s idx = .ok zeroMessage := by
  simp only [GetIdxMessage, h1, h2]

/-- C10 witness: index 1 holds the undecodable value "junk"; the caller
sees a nil error and the zero message. -/
theorem GetIdxMessage_discards_decode_error_witness :
    GetIdxMessage [("idx:1", "junk")] 1 = .ok zeroMessage :=
  GetIdxMessage_discards_decode_error [("idx:1", "junk")] 1 "junk" rfl rfl

/-! ## C8 — validation-hook errors and their surfacing -/

/-- C8: a validation run whose script returns a non-boolean yields the
"should return boolean" error (InvalidResult); one that returns false
yields the ValidationFailed sentinel, which validateEntry rewrites to
"Invalid entry: <content>" and the commit binding surfaces as a
HolochainError with exactly that message. -/
theorem validate_error_surfacing (run : String → Except String JSValue)
    (fnName shown : String) (def_ : EntryDef) (entry : String) (header : Header)
    (sources : List String) (es ss : String)
    (hp : prepareJSValidateEntryArgs def_ entry sources = .ok (es, ss)) :
    (∀ code, run code = .ok (.nonBoolean shown) →
      runValidate run fnName code = .error (.invalidResult fnName shown)) ∧
    (run (mkValidateEntryCode fnName def_ es header ss) = .ok (.boolean false) →
      runValidate run fnName (mkValidateEntryCode fnName def_ es header ss)
          = .error .validationFailed ∧
      validateEntry run fnName def_ entry header sources = .error (.invalidEntry entry) ∧
      mkOttoErr (errString (VErr.invalidEntry entry))
          = ⟨"HolochainError", "Invalid entry: " ++ entry⟩) := by
  constructor
  · intro code hrun
    simp [runValidate, hrun]
  · intro hrun
    refine ⟨?_, ?_, rfl⟩
    · simp [runValidate, hrun]
    · simp [validateEntry, hp, runValidate, hrun]

def c8run : String → Except String JSValue := fun _ => .ok (.boolean false)

/-- C8 witness: a `string`-format entry "hello" whose validate hook returns
false surfaces as the "Invalid entry: hello" error. -/
theorem validate_error_surfacing_witness :
    validateEntry c8run "validateCommit" ⟨"post", "string"⟩ "hello" ⟨"", "", ""⟩ []
      = .error (.invalidEntry "hello") :=
  ((validate_error_surfacing c8run "validateCommit" "x" ⟨"post", "string"⟩ "hello"
      ⟨"", "", ""⟩ [] "\"hello\"" "[\"\"]" (by decide)).2 rfl).2.1

end Holo
